import Mathlib

/-!
Verification of the onflows telemetry-processing core.

The repository's `src/app.py` contains only the external collaborators
(OAuth, stream fetching, persistence).  The processing core described by the
specification (Row Validator/Transformer, Artifact Detector, Window
Aggregator) is not present under `src/`; following the spec, it is modelled
here faithfully from the spec's own words.  The persistence helper
`save_streams` (src/app.py lines 241-268) is embedded from the source.

Numeric samples are modelled as rationals (ℚ); the haversine distance, which
the spec states over real trigonometric functions, is modelled over ℝ.
-/

set_option maxHeartbeats 1000000

/-- Modelled from the spec: `RawStreamSet` (§3) — a mapping from stream
name to positionally aligned samples.  A stream may be absent or shorter
than `time`; absent/short positions read as missing.  An absent stream is
the empty list.  Non-numeric samples are already coerced to null (`none`),
matching §7's requirement.  A `latlng` entry is a pair whose coordinates
may individually be missing, or the entry may be absent altogether. -/
structure RawStreamSet where
  time : List Nat
  distance : List (Option ℚ)
  altitude : List (Option ℚ)
  heartrate : List (Option ℚ)
  cadence : List (Option ℚ)
  watts : List (Option ℚ)
  velocity_smooth : List (Option ℚ)
  grade_smooth : List (Option ℚ)
  latlng : List (Option (Option ℚ × Option ℚ))
deriving DecidableEq

/-- Modelled from the spec: `CanonicalRow` (§3) — one fault-corrected
per-sample record with derived booleans. -/
structure CanonicalRow where
  ts_rel_s : Nat
  dist_m : Option ℚ
  speed_ms : Option ℚ
  hr_bpm : Option ℚ
  altitude_m : Option ℚ
  cadence : Option ℚ
  watts : Option ℚ
  lat : Option ℚ
  lng : Option ℚ
  grade : Option ℚ
  moving : Bool
  low_speed_hr_inconsistent : Bool
deriving DecidableEq

/-- Reading a stream at index `i`: positions beyond the stream's length are
missing (`none`). -/
def streamAt (l : List (Option ℚ)) (i : Nat) : Option ℚ :=
  l.getD i none

/-- Null-as-zero coercion used by the derived flags (§4.1). -/
def nullAsZero (o : Option ℚ) : ℚ :=
  o.getD 0

/-- Modelled from the spec: HR validation (§4.1, §8) — heart rate outside
`[40, 230]` is replaced with null, never clamped; boundaries are kept. -/
def validateHr (h : Option ℚ) : Option ℚ :=
  match h with
  | none => none
  | some x => if x < 40 ∨ 230 < x then none else some x

/-- Modelled from the spec: speed validation (§4.1, §8) — `0 ≤ v < 0.2`
collapses to exactly `0`; otherwise `v` is passed through unchanged; a
missing speed stays null. -/
def validateSpeed (v : Option ℚ) : Option ℚ :=
  match v with
  | none => none
  | some x => if 0 ≤ x ∧ x < 1/5 then some 0 else some x

/-- Modelled from the spec: position validation (§4.1) — the position is
kept only when both coordinates of the pair are present; otherwise both
`lat` and `lng` are null. -/
def validatePos (p : Option (Option ℚ × Option ℚ)) : Option ℚ × Option ℚ :=
  match p with
  | some (some a, some b) => (some a, some b)
  | _ => (none, none)

/-- The validated (post-clamp) speed sequence, one entry per `time` sample. -/
def validatedSpeeds (raw : RawStreamSet) : List (Option ℚ) :=
  (List.range raw.time.length).map (fun i => validateSpeed (streamAt raw.velocity_smooth i))

/-- Minimum of a list of rationals, `0` on the empty list (the flag below
only evaluates it on nonempty windows). -/
def rollMin (l : List ℚ) : ℚ :=
  match l with
  | [] => 0
  | x :: xs => xs.foldl min x

/-- Modelled from the spec: the rolling minimum (§4.1) — minimum of the
null-as-zero speeds across the trailing window of the current sample and its
preceding `L_low - 1 = 9` samples, truncated at the start of the sequence. -/
def trailingMinSpeed (raw : RawStreamSet) (i : Nat) : ℚ :=
  rollMin ((((validatedSpeeds raw).map nullAsZero).take (i + 1)).drop (i + 1 - 10))

/-- Modelled from the spec: construction of the canonical row at index `i`
(§4.1): per-sample clamps, pass-through fields, and the derived `moving` and
`low_speed_hr_inconsistent` flags (thresholds `v_low = 0.6`,
`hr_work = 95`). -/
def mkCanonicalRow (raw : RawStreamSet) (i : Nat) : CanonicalRow :=
  let sp := validateSpeed (streamAt raw.velocity_smooth i)
  let hr := validateHr (streamAt raw.heartrate i)
  let pos := validatePos (raw.latlng.getD i none)
  { ts_rel_s := raw.time.getD i 0
    dist_m := streamAt raw.distance i
    speed_ms := sp
    hr_bpm := hr
    altitude_m := streamAt raw.altitude i
    cadence := streamAt raw.cadence i
    watts := streamAt raw.watts i
    lat := pos.1
    lng := pos.2
    grade := streamAt raw.grade_smooth i
    moving := decide (3/5 < nullAsZero sp)
    low_speed_hr_inconsistent :=
      decide (trailingMinSpeed raw i ≤ 3/5 ∧ 95 ≤ nullAsZero hr) }

/-- Modelled from the spec: the Row Validator/Transformer (§4.1) — one
canonical row per `time` sample; an empty `time` stream yields the empty
sequence. -/
def validateRows (raw : RawStreamSet) : List CanonicalRow :=
  (List.range raw.time.length).map (mkCanonicalRow raw)

/-! ### Artifact Detector (modelled from the spec, §4.2) -/

/-- Modelled from the spec: the three artifact kinds (§3). -/
inductive ArtifactKind where
  | missingData
  | zeroSpeedPause
  | gpsJump
deriving DecidableEq

/-- Modelled from the spec: `Artifact` (§3) — an interval inclusive at both
ends, a kind, and an integer severity.  The free-text `note` field carries no
behaviour any claim depends on and is not modelled. -/
structure Artifact where
  kind : ArtifactKind
  ts_rel_s_from : ℤ
  ts_rel_s_to : ℤ
  severity : Nat
deriving DecidableEq

/-- A row whose `speed_ms`, `hr_bpm` and `altitude_m` are all null
simultaneously (§4.2, missing-data check). -/
def allNullRow (r : CanonicalRow) : Bool :=
  r.speed_ms.isNone && r.hr_bpm.isNone && r.altitude_m.isNone

/-- Modelled from the spec: the missing-data check (§4.2) — if the fraction
of rows with speed, HR and altitude all null is at least `0.2`, emit one
artifact spanning the first to the last row's timestamp, severity 2; nothing
on an empty sequence. -/
def missingDataArtifacts (rows : List CanonicalRow) : List Artifact :=
  match rows with
  | [] => []
  | r :: rs =>
    let frac : ℚ := (rows.countP allNullRow : ℚ) / rows.length
    if 1/5 ≤ frac then
      [⟨ArtifactKind.missingData, (r.ts_rel_s : ℤ),
        (((r :: rs).getLast (List.cons_ne_nil r rs)).ts_rel_s : ℤ), 2⟩]
    else []

/-- A row whose validated speed is exactly zero (§4.2: only an exact numeric
zero counts toward a pause run). -/
def isZeroSpeed (r : CanonicalRow) : Bool :=
  r.speed_ms == some 0

/-- Closing a zero-speed run of `len` samples that started at timestamp
`start`: emit an artifact `[start, start + len - 1]` of severity 1 when the
run is at least 30 samples long, nothing otherwise (§4.2). -/
def zeroPauseFlush (start len : Nat) : List Artifact :=
  if 30 ≤ len then
    [⟨ArtifactKind.zeroSpeedPause, (start : ℤ), (start : ℤ) + len - 1, 1⟩]
  else []

/-- Modelled from the spec: the zero-speed-pause scan (§4.2) — walk the rows
in order keeping a counter of consecutive exactly-zero-speed rows; a
non-zero or null sample closes the run (flushing it if long enough), and a
run still open at the end of the sequence is flushed the same way. -/
def zeroPauseScan : List CanonicalRow → Nat → Nat → List Artifact
  | [], start, len => zeroPauseFlush start len
  | r :: rs, start, len =>
    if isZeroSpeed r then
      if len = 0 then zeroPauseScan rs r.ts_rel_s 1
      else zeroPauseScan rs start (len + 1)
    else
      zeroPauseFlush start len ++ zeroPauseScan rs 0 0

/-- The zero-speed-pause pass over a whole row sequence. -/
def zeroPauseArtifacts (rows : List CanonicalRow) : List Artifact :=
  zeroPauseScan rows 0 0

/-- The maximal runs of consecutive exactly-zero-speed rows, as
`(start timestamp, length)` pairs, in order of occurrence.  Reference
description used to state the pause-scan claim. -/
def zeroRuns : List CanonicalRow → List (Nat × Nat)
  | [] => []
  | r :: rs =>
    if isZeroSpeed r then
      (r.ts_rel_s, (rs.takeWhile isZeroSpeed).length + 1) ::
        zeroRuns (rs.dropWhile isZeroSpeed)
    else zeroRuns rs
termination_by l => l.length
decreasing_by
  · simp only [List.length_cons]
    refine Nat.lt_succ_of_le ?_
    induction rs with
    | nil => simp [List.dropWhile]
    | cons a l ih =>
      rw [List.dropWhile_cons]
      split
      · exact Nat.le_trans ih (Nat.le_succ _)
      · exact Nat.le_refl _
  · simp

/-- Modelled from the spec: haversine great-circle surface distance (§4.2)
between two positions given in degrees, Earth radius 6,371,000 m. -/
noncomputable def haversineDist (lat1 lng1 lat2 lng2 : ℚ) : ℝ :=
  let rad : ℚ → ℝ := fun d => (d : ℝ) * Real.pi / 180
  let a : ℝ :=
    Real.sin (rad (lat2 - lat1) / 2) ^ 2 +
      Real.cos (rad lat1) * Real.cos (rad lat2) * Real.sin (rad (lng2 - lng1) / 2) ^ 2
  2 * 6371000 * Real.arcsin (Real.sqrt a)

open Classical in
/-- Modelled from the spec: the gps-jump check for one consecutive pair of
rows (§4.2) — if both rows carry a position and the haversine distance
exceeds 50 m, an artifact covering `[current.ts_rel_s - 1, current.ts_rel_s]`
with severity 2; a pair where either side lacks a position yields nothing. -/
noncomputable def gpsJumpPair (a b : CanonicalRow) : Option Artifact :=
  match a.lat, a.lng, b.lat, b.lng with
  | some x1, some y1, some x2, some y2 =>
    if 50 < haversineDist x1 y1 x2 y2 then
      some ⟨ArtifactKind.gpsJump, (b.ts_rel_s : ℤ) - 1, (b.ts_rel_s : ℤ), 2⟩
    else none
  | _, _, _, _ => none

/-- Modelled from the spec: the gps-jump scan (§4.2) — every consecutive
pair of rows is examined; pairs lacking a position are skipped without
breaking the scan. -/
noncomputable def gpsJumpScan : List CanonicalRow → List Artifact
  | [] => []
  | [_] => []
  | a :: b :: rs => (gpsJumpPair a b).toList ++ gpsJumpScan (b :: rs)

/-- Modelled from the spec: the Artifact Detector (§4.2) — the three
independent passes in emission order. -/
noncomputable def detectArtifacts (rows : List CanonicalRow) : List Artifact :=
  missingDataArtifacts rows ++ zeroPauseArtifacts rows ++ gpsJumpScan rows

/-! ### Window Aggregator (modelled from the spec, §4.3) -/

/-- Modelled from the spec: `duration = last ts_rel_s + 1`, with `0` for an
empty row sequence (§4.3). -/
def duration (rows : List CanonicalRow) : Nat :=
  match rows.getLast? with
  | none => 0
  | some r => r.ts_rel_s + 1

/-- Number of window buckets: `ceil (duration / W)` (§4.3). -/
def winCount (rows : List CanonicalRow) (W : Nat) : Nat :=
  (duration rows + W - 1) / W

/-- Modelled from the spec: the rows selected by window `i`, i.e. rows with
`i*W ≤ ts_rel_s < min ((i+1)*W) duration` (§4.3). -/
def selRows (rows : List CanonicalRow) (W i : Nat) : List CanonicalRow :=
  rows.filter
    (fun r => decide (i * W ≤ r.ts_rel_s ∧ r.ts_rel_s < min ((i + 1) * W) (duration rows)))

/-- Sort a list of rationals ascending. -/
def sortQ (l : List ℚ) : List ℚ :=
  l.mergeSort (fun a b => a ≤ b)

/-- Mean of a list of rationals, null on the empty list (§4.3 edge cases). -/
def meanQ (l : List ℚ) : Option ℚ :=
  match l with
  | [] => none
  | _ => some (l.sum / l.length)

/-- 95th percentile (nearest-rank; the spec does not fix the interpolation
method), null on the empty list. -/
def p95Q (l : List ℚ) : Option ℚ :=
  match l with
  | [] => none
  | _ => some ((sortQ l).getD ((95 * l.length + 99) / 100 - 1) 0)

/-- Median (mean of the two middle elements for even length), null on the
empty list. -/
def medianQ (l : List ℚ) : Option ℚ :=
  match l with
  | [] => none
  | _ =>
    let s := sortQ l
    let n := l.length
    if n % 2 = 1 then some (s.getD (n / 2) 0)
    else some ((s.getD (n / 2 - 1) 0 + s.getD (n / 2) 0) / 2)

/-- Sum of first differences of a list (§4.3: net change, not total
ascent+descent). -/
def diffSum (l : List ℚ) : ℚ :=
  ((l.zip l.tail).map (fun p => p.2 - p.1)).sum

/-- Sum of first differences of the non-null values, null when the source
column is entirely null in the window (§4.3 edge cases). -/
def deltaQ (l : List ℚ) : Option ℚ :=
  match l with
  | [] => none
  | _ => some (diffSum l)

/-- Accumulator for `gapSeconds`: current run of null speed and best run so
far. -/
def gapSecondsGo : List CanonicalRow → Nat → Nat → Nat
  | [], cur, best => max cur best
  | r :: rs, cur, best =>
    if r.speed_ms.isNone then gapSecondsGo rs (cur + 1) best
    else gapSecondsGo rs 0 (max cur best)

/-- Modelled from the spec: the largest contiguous run of null speed inside
the window, in samples (§4.3). -/
def gapSeconds (sel : List CanonicalRow) : Nat :=
  gapSecondsGo sel 0 0

/-- Modelled from the spec: the composite quality score (§4.3) —
`0.4·speed-coverage + 0.2·(1 - gap/W) + 0.2·HR-coverage +
0.2·(1 - inconsistency rate)`, clamped to `[0,1]`. -/
def qScore (sel : List CanonicalRow) (W : Nat) : ℚ :=
  let n : ℚ := sel.length
  min 1 (max 0 (
    2/5 * ((sel.countP (fun r => r.speed_ms.isSome) : ℚ) / n)
    + 1/5 * (1 - (gapSeconds sel : ℚ) / (W : ℚ))
    + 1/5 * ((sel.countP (fun r => r.hr_bpm.isSome) : ℚ) / n)
    + 1/5 * (1 - (sel.countP (fun r => r.low_speed_hr_inconsistent) : ℚ) / n)))

/-- Modelled from the spec: `WindowAggregate` (§3, §4.3). -/
structure WindowAggregate where
  window_s : Nat
  win_idx : Nat
  t_start : Nat
  t_end : Nat
  mean_speed_ms : Option ℚ
  p95_speed_ms : Option ℚ
  median_hr_bpm : Option ℚ
  hr_valid_fraction : ℚ
  mean_grade : Option ℚ
  elev_delta_m : Option ℚ
  distance_delta_m : Option ℚ
  lat_center : Option ℚ
  lng_center : Option ℚ
  moving_fraction : ℚ
  n_points : Nat
  gap_seconds : Nat
  q_score : ℚ
deriving DecidableEq

/-- Modelled from the spec: the aggregate for window `i` (§4.3), computed
over the rows that window selects; `startTs` is the activity's absolute
start instant in seconds. -/
def mkAggregate (startTs W : Nat) (rows : List CanonicalRow) (i : Nat) : WindowAggregate :=
  let sel := selRows rows W i
  { window_s := W
    win_idx := i
    t_start := startTs + i * W
    t_end := startTs + min ((i + 1) * W) (duration rows)
    mean_speed_ms := meanQ (sel.filterMap CanonicalRow.speed_ms)
    p95_speed_ms := p95Q (sel.filterMap CanonicalRow.speed_ms)
    median_hr_bpm := medianQ (sel.filterMap CanonicalRow.hr_bpm)
    hr_valid_fraction := (sel.countP (fun r => r.hr_bpm.isSome) : ℚ) / (sel.length : ℚ)
    mean_grade := meanQ (sel.filterMap CanonicalRow.grade)
    elev_delta_m := deltaQ (sel.filterMap CanonicalRow.altitude_m)
    distance_delta_m := deltaQ (sel.filterMap CanonicalRow.dist_m)
    lat_center := meanQ (sel.filterMap CanonicalRow.lat)
    lng_center := meanQ (sel.filterMap CanonicalRow.lng)
    moving_fraction := (sel.countP CanonicalRow.moving : ℚ) / (sel.length : ℚ)
    n_points := sel.length
    gap_seconds := gapSeconds sel
    q_score := qScore sel W }

/-- Modelled from the spec: the Window Aggregator (§4.3) — one aggregate per
non-empty bucket, buckets that select zero rows omitted entirely. -/
def windowAggregates (startTs W : Nat) (rows : List CanonicalRow) : List WindowAggregate :=
  (List.range (winCount rows W)).filterMap (fun i =>
    if (selRows rows W i).isEmpty then none else some (mkAggregate startTs W rows i))

/-- Modelled from the spec: the full pipeline (§2) — raw arrays to canonical
rows, artifacts and window aggregates, the two downstream outputs derived
independently from the same validated rows. -/
noncomputable def runPipeline (startTs W : Nat) (raw : RawStreamSet) :
    List CanonicalRow × List Artifact × List WindowAggregate :=
  let rows := validateRows raw
  (rows, detectArtifacts rows, windowAggregates startTs W rows)

/-! ### Persistence helper `save_streams` (embedded from src/app.py 241-268) -/

/-- One row of the `activity_streams` table (src/app.py 249-257): the
owning activity, the stream name, and the raw data payload. -/
structure StreamRow where
  activity_id : Nat
  stream_type : String
  data : List Int
deriving DecidableEq

/-- Embedding of `save_streams` (src/app.py 241-268) as a transition on the
`activity_streams` table state.  The two Supabase calls that can raise are
modelled by the Boolean failure flags; a `none` result is a raised
exception.  The function first deletes every stored row of the activity,
then builds one row per entry of the `streams` mapping (a missing `"data"`
key degrades to `[]`), returns 0 if there is nothing to insert, and
otherwise inserts and returns the number of inserted rows. -/
def save_streams (db : List StreamRow) (activity_id : Nat)
    (streams : List (String × Option (List Int)))
    (deleteFails insertFails : Bool) : List StreamRow × Option Nat :=
  if deleteFails then (db, none)
  else
    let db1 := db.filter (fun r => r.activity_id != activity_id)
    let rows := streams.map (fun p => StreamRow.mk activity_id p.1 (p.2.getD []))
    if rows.isEmpty then (db1, some 0)
    else if insertFails then (db1, none)
    else (db1 ++ rows, some rows.length)

/-! ### Concrete inputs used by the witnesses -/

/-- A small concrete raw stream set exercising the validation rules. -/
def sampleRaw : RawStreamSet :=
  { time := [0, 1, 2]
    distance := [some 0, some 3, some 6]
    altitude := []
    heartrate := [some 250, some 40, some 39]
    cadence := []
    watts := []
    velocity_smooth := [some (1/10), some 3, none]
    grade_smooth := []
    latlng := [some (some 42, some 23), some (some 42, none), none] }

/-- A raw stream set whose `time` stream is empty. -/
def emptyRaw : RawStreamSet :=
  { time := []
    distance := [some 0]
    altitude := []
    heartrate := []
    cadence := []
    watts := []
    velocity_smooth := []
    grade_smooth := []
    latlng := [] }

/-- A concrete `activity_streams` table state with rows of two activities. -/
def sampleDb : List StreamRow :=
  [⟨7, "time", [1, 2]⟩, ⟨8, "heartrate", [3]⟩, ⟨7, "distance", [4]⟩]

/-- A concrete nonempty streams mapping for `save_streams`. -/
def sampleStreams : List (String × Option (List Int)) :=
  [("time", some [5, 6]), ("cadence", none)]

/-- A canonical row carrying only a position, at latitude `la` and a fixed
longitude. -/
def rowP (ts : Nat) (la : ℚ) : CanonicalRow :=
  { ts_rel_s := ts, dist_m := none, speed_ms := none, hr_bpm := none,
    altitude_m := none, cadence := none, watts := none,
    lat := some la, lng := some 23, grade := none,
    moving := false, low_speed_hr_inconsistent := false }

/-- Two consecutive positioned rows for the gps-jump witness. -/
def gpsRows : List CanonicalRow :=
  [rowP 0 42, rowP 1 (42 + 1/1000)]

/-- A fully covered canonical row: speed and HR present, no flags. -/
def wRow (ts : Nat) : CanonicalRow :=
  { ts_rel_s := ts, dist_m := none, speed_ms := some 3, hr_bpm := some 120,
    altitude_m := none, cadence := none, watts := none,
    lat := none, lng := none, grade := none,
    moving := true, low_speed_hr_inconsistent := false }

/-- Thirty fully covered rows, one per second — one complete 30 s window. -/
def wRows : List CanonicalRow :=
  (List.range 30).map wRow

/-! ### Theorems -/

theorem validateRows_length (raw : RawStreamSet) :
    (validateRows raw).length = raw.time.length := by
  simp [validateRows]

theorem validateRows_get (raw : RawStreamSet) (i : Nat)
    (hi : i < (validateRows raw).length) :
    (validateRows raw).get ⟨i, hi⟩ = mkCanonicalRow raw i := by
  simp [validateRows]

/-- C1: running the full pipeline twice on identical input yields identical
output — the modelled computation is a function of the raw stream set, the
activity start instant and the window width alone, so two runs on equal
inputs agree. -/
theorem pipeline_two_run_deterministic (startTs W : Nat) (raw1 raw2 : RawStreamSet)
    (h : raw1 = raw2) :
    runPipeline startTs W raw1 = runPipeline startTs W raw2 := by
  rw [h]

theorem pipeline_two_run_deterministic_witness :
    sampleRaw = sampleRaw ∧ runPipeline 0 30 sampleRaw = runPipeline 0 30 sampleRaw :=
  ⟨rfl, pipeline_two_run_deterministic 0 30 sampleRaw sampleRaw rfl⟩

/-- C2: for a raw heart-rate sample `h` at index `i`, the validated row's
`hr_bpm` is null iff `h < 40 ∨ 230 < h`, and an in-range sample (boundaries
included) is kept unchanged — never clamped to a boundary. -/
theorem hr_null_iff_out_of_range (raw : RawStreamSet) (i : Nat)
    (hi : i < (validateRows raw).length) (h : ℚ)
    (hh : streamAt raw.heartrate i = some h) :
    (((validateRows raw).get ⟨i, hi⟩).hr_bpm = none ↔ (h < 40 ∨ 230 < h)) ∧
      (¬(h < 40 ∨ 230 < h) → ((validateRows raw).get ⟨i, hi⟩).hr_bpm = some h) := by
  rw [validateRows_get]
  simp only [mkCanonicalRow, validateHr, hh]
  by_cases hc : h < 40 ∨ 230 < h
  · simp [hc]
  · simp [hc]

theorem hr_null_iff_out_of_range_witness :
    ((((validateRows sampleRaw).get ⟨0, by decide⟩).hr_bpm = none ↔
        ((250 : ℚ) < 40 ∨ 230 < (250 : ℚ))) ∧
      (¬((250 : ℚ) < 40 ∨ 230 < (250 : ℚ)) →
        ((validateRows sampleRaw).get ⟨0, by decide⟩).hr_bpm = some 250)) :=
  hr_null_iff_out_of_range sampleRaw 0 (by decide) 250 rfl

/-- C3: for a raw speed sample `v` at index `i`, the validated row's
`speed_ms` is exactly `0` iff `0 ≤ v < 0.2`, is `v` unchanged otherwise,
and a missing speed stays null rather than being collapsed to `0`. -/
theorem speed_zero_iff_below_min (raw : RawStreamSet) (i : Nat)
    (hi : i < (validateRows raw).length) :
    (∀ v : ℚ, streamAt raw.velocity_smooth i = some v →
        ((((validateRows raw).get ⟨i, hi⟩).speed_ms = some 0 ↔ (0 ≤ v ∧ v < 1/5)) ∧
          (¬(0 ≤ v ∧ v < 1/5) → ((validateRows raw).get ⟨i, hi⟩).speed_ms = some v))) ∧
      (streamAt raw.velocity_smooth i = none →
        ((validateRows raw).get ⟨i, hi⟩).speed_ms = none) := by
  rw [validateRows_get]
  constructor
  · intro v hv
    simp only [mkCanonicalRow, validateSpeed, hv]
    by_cases hc : 0 ≤ v ∧ v < 1/5
    · rw [if_pos hc]
      exact ⟨⟨fun _ => hc, fun _ => rfl⟩, fun hn => absurd hc hn⟩
    · rw [if_neg hc]
      refine ⟨⟨fun hv0 => ?_, fun hin => absurd hin hc⟩, fun _ => rfl⟩
      have hv0' : v = 0 := Option.some.inj hv0
      subst hv0'
      exact absurd ⟨le_refl 0, by norm_num⟩ hc
  · intro hv
    simp [mkCanonicalRow, validateSpeed, hv]

theorem speed_zero_iff_below_min_witness :
    ((((validateRows sampleRaw).get ⟨0, by decide⟩).speed_ms = some 0 ↔
        (0 ≤ (1/10 : ℚ) ∧ (1/10 : ℚ) < 1/5)) ∧
      (¬(0 ≤ (1/10 : ℚ) ∧ (1/10 : ℚ) < 1/5) →
        ((validateRows sampleRaw).get ⟨0, by decide⟩).speed_ms = some (1/10))) ∧
      (streamAt sampleRaw.velocity_smooth 2 = none →
        ((validateRows sampleRaw).get ⟨2, by decide⟩).speed_ms = none) :=
  ⟨(speed_zero_iff_below_min sampleRaw 0 (by decide)).1 (1/10) rfl,
    (speed_zero_iff_below_min sampleRaw 2 (by decide)).2⟩

/-- C4: in every canonical row the validator produces, `lat` and `lng` are
both present or both null, never exactly one of the pair; the downstream
components only read rows and never build or alter them, so the invariant
holds for every row they see. -/
theorem latlng_both_or_neither (raw : RawStreamSet) (r : CanonicalRow)
    (hr : r ∈ validateRows raw) :
    r.lat.isSome ↔ r.lng.isSome := by
  obtain ⟨i, _, rfl⟩ := List.mem_map.mp hr
  simp only [mkCanonicalRow]
  rcases hp : raw.latlng.getD i none with _ | ⟨_ | a, _ | b⟩ <;>
    simp [validatePos]

theorem latlng_both_or_neither_witness :
    ((validateRows sampleRaw).get ⟨1, by decide⟩).lat.isSome ↔
      ((validateRows sampleRaw).get ⟨1, by decide⟩).lng.isSome :=
  latlng_both_or_neither sampleRaw _ (List.get_mem _ _ _)

/-- C9: the core is total — the validated row sequence always has the length
of the `time` stream, missing or short streams degrading to nulls rather
than errors — and an empty `time` stream short-circuits every stage to
empty outputs: no rows, no artifacts, no window aggregates. -/
theorem empty_time_empty_outputs (startTs W : Nat) (raw : RawStreamSet) :
    (validateRows raw).length = raw.time.length ∧
      (raw.time = [] → runPipeline startTs W raw = ([], [], [])) := by
  refine ⟨by simp [validateRows], fun h => ?_⟩
  have hrows : validateRows raw = [] := by simp [validateRows, h]
  have hwc : winCount ([] : List CanonicalRow) W = 0 := by
    rcases Nat.eq_zero_or_pos W with hW | hW
    · simp [winCount, duration, hW]
    · simp only [winCount, duration, List.getLast?_nil, Nat.zero_add]
      exact Nat.div_eq_of_lt (Nat.sub_lt hW Nat.one_pos)
  simp [runPipeline, hrows, detectArtifacts, missingDataArtifacts,
    zeroPauseArtifacts, zeroPauseScan, zeroPauseFlush, gpsJumpScan,
    windowAggregates, hwc]

theorem empty_time_empty_outputs_witness :
    (validateRows emptyRaw).length = emptyRaw.time.length ∧
      runPipeline 0 30 emptyRaw = ([], [], []) :=
  ⟨(empty_time_empty_outputs 0 30 emptyRaw).1,
    (empty_time_empty_outputs 0 30 emptyRaw).2 rfl⟩

/-- C10: `save_streams` deletes every stored stream row of the activity
before any insertion is attempted: when the streams mapping is empty it
returns 0 with the old rows already deleted, when the insert raises the old
rows are already gone, and in every non-raising-delete outcome any row of
the activity left in the table is one of the newly built rows — the
operation is not atomic. -/
theorem save_streams_deletes_before_insert (db : List StreamRow) (aid : Nat)
    (streams : List (String × Option (List Int))) (insertFails : Bool) :
    (∀ r ∈ (save_streams db aid streams false insertFails).1,
        r.activity_id = aid →
          r ∈ streams.map (fun p => StreamRow.mk aid p.1 (p.2.getD []))) ∧
      (streams = [] →
        save_streams db aid streams false insertFails =
          (db.filter (fun r => r.activity_id != aid), some 0)) ∧
      (insertFails = true → streams ≠ [] →
        save_streams db aid streams false insertFails =
          (db.filter (fun r => r.activity_id != aid), none)) := by
  refine ⟨?_, ?_, ?_⟩
  · intro r hr hraid
    have hdel : r ∈ db.filter (fun x => x.activity_id != aid) → False := by
      intro hs
      have := (List.mem_filter.mp hs).2
      simp [hraid] at this
    by_cases hemp : streams = []
    · subst hemp
      simp only [save_streams] at hr
      simp at hr
      exact (hr.2 hraid).elim
    · have hne : ¬(streams.map (fun p => StreamRow.mk aid p.1 (p.2.getD []))).isEmpty := by
        simp [List.isEmpty_iff, hemp]
      cases insertFails with
      | true =>
        have h1 : (save_streams db aid streams false true).1 =
            db.filter (fun x => x.activity_id != aid) := by
          simp [save_streams, hne]
        rw [h1] at hr
        exact (hdel hr).elim
      | false =>
        have h1 : (save_streams db aid streams false false).1 =
            db.filter (fun x => x.activity_id != aid) ++
              streams.map (fun p => StreamRow.mk aid p.1 (p.2.getD [])) := by
          simp [save_streams, hne]
        rw [h1] at hr
        rcases List.mem_append.mp hr with hl | hrr
        · exact (hdel hl).elim
        · exact hrr
  · intro h
    subst h
    simp [save_streams]
  · intro hins hne
    subst hins
    have : ¬(streams.map (fun p => StreamRow.mk aid p.1 (p.2.getD []))).isEmpty := by
      simpa [List.isEmpty_iff] using hne
    simp [save_streams, this]

theorem save_streams_deletes_before_insert_witness :
    (sampleStreams ≠ [] ∧
        save_streams sampleDb 7 sampleStreams false true =
          (sampleDb.filter (fun r => r.activity_id != 7), none)) ∧
      save_streams sampleDb 7 [] false false =
        (sampleDb.filter (fun r => r.activity_id != 7), some 0) := by
  refine ⟨⟨by decide, (save_streams_deletes_before_insert sampleDb 7 sampleStreams true).2.2 rfl (by decide)⟩, ?_⟩
  exact (save_streams_deletes_before_insert sampleDb 7 [] false).2.1 rfl

/-- Helper for the pause-scan claim: a scan with an open run of `len > 0`
samples started at `start` first absorbs the longest zero-speed prefix,
closes that run, and then continues fresh on the rest. -/
theorem zeroPauseScan_open_run (rs : List CanonicalRow) (start len : Nat) (h : 0 < len) :
    zeroPauseScan rs start len =
      zeroPauseFlush start (len + (rs.takeWhile isZeroSpeed).length) ++
        zeroPauseScan (rs.dropWhile isZeroSpeed) 0 0 := by
  induction rs generalizing start len with
  | nil =>
    simp [zeroPauseScan, zeroPauseFlush]
  | cons r rs ih =>
    cases hz : isZeroSpeed r with
    | true =>
      have hlen : len ≠ 0 := Nat.pos_iff_ne_zero.mp h
      simp only [zeroPauseScan, hz, if_true, if_neg hlen, List.takeWhile_cons, hz,
        List.dropWhile_cons]
      rw [ih start (len + 1) (Nat.succ_pos len)]
      simp [Nat.add_assoc, Nat.add_comm 1]
    | false =>
      simp only [zeroPauseScan, hz, List.takeWhile_cons, List.dropWhile_cons]
      simp [zeroPauseFlush]

/-- C5: the zero-speed-pause pass emits exactly one severity-1 artifact
spanning `[start, start + length - 1]` for each maximal run of consecutive
exactly-zero-speed rows of length at least 30 — null speed terminates a run
without extending it, a run still open at the end of the sequence is flushed
by the same rule, and shorter runs emit nothing. -/
theorem zero_pause_per_maximal_run (rows : List CanonicalRow) :
    zeroPauseArtifacts rows =
      ((zeroRuns rows).filter (fun p => decide (30 ≤ p.2))).map
        (fun p => ⟨ArtifactKind.zeroSpeedPause, (p.1 : ℤ), (p.1 : ℤ) + (p.2 : ℤ) - 1, 1⟩) := by
  simp only [zeroPauseArtifacts]
  induction rows using zeroRuns.induct with
  | case1 => simp [zeroPauseScan, zeroPauseFlush, zeroRuns]
  | case2 r rs hz ih =>
    have h1 : zeroPauseScan (r :: rs) 0 0 = zeroPauseScan rs r.ts_rel_s 1 := by
      simp [zeroPauseScan, hz]
    have h2 : zeroRuns (r :: rs) =
        (r.ts_rel_s, (rs.takeWhile isZeroSpeed).length + 1) ::
          zeroRuns (rs.dropWhile isZeroSpeed) := by
      rw [zeroRuns]
      simp [hz]
    rw [h1, zeroPauseScan_open_run rs r.ts_rel_s 1 Nat.one_pos, ih, h2, List.filter_cons]
    by_cases h30 : 30 ≤ (rs.takeWhile isZeroSpeed).length + 1
    · rw [if_pos (by simpa using h30)]
      rw [List.map_cons]
      rw [zeroPauseFlush, if_pos (by omega)]
      simp only [List.cons_append, List.nil_append]
      congr 2
      push_cast
      ring
    · rw [if_neg (by simpa using h30)]
      rw [zeroPauseFlush, if_neg (by omega)]
      simp
  | case3 r rs hz ih =>
    have h1 : zeroPauseScan (r :: rs) 0 0 = zeroPauseScan rs 0 0 := by
      simp [zeroPauseScan, hz, zeroPauseFlush]
    have h2 : zeroRuns (r :: rs) = zeroRuns rs := by
      rw [zeroRuns]
      simp [hz]
    rw [h1, h2, ih]

/-- C6: the gps-jump pass examines exactly the consecutive row pairs, in
order, emitting for a pair with both positions present a severity-2 artifact
covering `[current.ts_rel_s - 1, current.ts_rel_s]` iff their haversine
distance (Earth radius 6,371,000 m) exceeds 50 m, and skipping pairs where
either side lacks a position without breaking the scan. -/
theorem gps_jump_scan_spec :
    (∀ rows : List CanonicalRow,
      gpsJumpScan rows = (rows.zip rows.tail).filterMap (fun p => gpsJumpPair p.1 p.2)) ∧
    (∀ a b : CanonicalRow, ∀ x1 y1 x2 y2 : ℚ,
      a.lat = some x1 → a.lng = some y1 → b.lat = some x2 → b.lng = some y2 →
      ((gpsJumpPair a b =
          some ⟨ArtifactKind.gpsJump, (b.ts_rel_s : ℤ) - 1, (b.ts_rel_s : ℤ), 2⟩ ↔
        50 < haversineDist x1 y1 x2 y2) ∧
        (¬50 < haversineDist x1 y1 x2 y2 → gpsJumpPair a b = none))) ∧
    (∀ a b : CanonicalRow, (a.lat = none ∨ a.lng = none ∨ b.lat = none ∨ b.lng = none) →
      gpsJumpPair a b = none) := by
  refine ⟨?_, ?_, ?_⟩
  · intro rows
    induction rows with
    | nil => simp [gpsJumpScan]
    | cons a t ih =>
      cases t with
      | nil => simp [gpsJumpScan]
      | cons b rs =>
        simp only [gpsJumpScan, List.tail_cons, List.zip_cons_cons, List.filterMap_cons]
        cases h : gpsJumpPair a b with
        | none => simpa [h] using ih
        | some art => simpa [h] using ih
  · intro a b x1 y1 x2 y2 h1 h2 h3 h4
    simp only [gpsJumpPair, h1, h2, h3, h4]
    by_cases h50 : 50 < haversineDist x1 y1 x2 y2
    · rw [if_pos h50]
      exact ⟨⟨fun _ => h50, fun _ => rfl⟩, fun hn => absurd h50 hn⟩
    · rw [if_neg h50]
      exact ⟨⟨fun h => absurd h (by simp), fun h => absurd h h50⟩, fun _ => rfl⟩
  · intro a b h
    rcases h with h | h | h | h <;> simp [gpsJumpPair, h]

theorem gps_jump_scan_spec_witness :
    (gpsJumpScan gpsRows =
      (gpsRows.zip gpsRows.tail).filterMap (fun p => gpsJumpPair p.1 p.2)) ∧
    ((gpsJumpPair (rowP 0 42) (rowP 1 (42 + 1/1000)) =
        some ⟨ArtifactKind.gpsJump, (((rowP 1 (42 + 1/1000)).ts_rel_s : ℤ) - 1),
          ((rowP 1 (42 + 1/1000)).ts_rel_s : ℤ), 2⟩ ↔
      50 < haversineDist 42 23 (42 + 1/1000) 23) ∧
      (¬50 < haversineDist 42 23 (42 + 1/1000) 23 →
        gpsJumpPair (rowP 0 42) (rowP 1 (42 + 1/1000)) = none)) :=
  ⟨gps_jump_scan_spec.1 gpsRows,
    gps_jump_scan_spec.2.1 (rowP 0 42) (rowP 1 (42 + 1/1000)) 42 23 (42 + 1/1000) 23
      rfl rfl rfl rfl⟩

/-- C7: with window width `W > 0`, window membership is exhaustive and
non-overlapping — a row is selected by window `i` iff `i = ts_rel_s / W`
(so by exactly one window), that window index is always among the emitted
bucket range, and an aggregate is emitted for a bucket iff the bucket is in
range and selects at least one row (empty buckets are omitted entirely). -/
theorem window_partition (startTs W : Nat) (rows : List CanonicalRow) (hW : 0 < W)
    (hts : ∀ r ∈ rows, r.ts_rel_s < duration rows) :
    (∀ r ∈ rows, ∀ i : Nat, (r ∈ selRows rows W i ↔ i = r.ts_rel_s / W)) ∧
      (∀ r ∈ rows, r.ts_rel_s / W < winCount rows W) ∧
      (∀ i : Nat,
        (∃ a ∈ windowAggregates startTs W rows, a.win_idx = i) ↔
          (i < winCount rows W ∧ selRows rows W i ≠ [])) := by
  refine ⟨?_, ?_, ?_⟩
  · intro r hr i
    rw [selRows, List.mem_filter]
    simp only [hr, true_and, decide_eq_true_eq]
    constructor
    · rintro ⟨h1, h2⟩
      have h2' : r.ts_rel_s < (i + 1) * W := (lt_min_iff.mp h2).1
      have hle : i ≤ r.ts_rel_s / W := (Nat.le_div_iff_mul_le hW).mpr h1
      have hlt : r.ts_rel_s / W < i + 1 := (Nat.div_lt_iff_lt_mul hW).mpr h2'
      omega
    · rintro rfl
      refine ⟨Nat.div_mul_le_self _ _, lt_min_iff.mpr ⟨?_, hts r hr⟩⟩
      exact (Nat.div_lt_iff_lt_mul hW).mp (Nat.lt_succ_self _)
  · intro r hr
    have h1 : r.ts_rel_s < duration rows := hts r hr
    have hd : 1 ≤ duration rows := by omega
    rw [winCount]
    have he : duration rows + W - 1 = (duration rows - 1) + W := by omega
    rw [he, Nat.add_div_right _ hW]
    have hm : r.ts_rel_s / W ≤ (duration rows - 1) / W := Nat.div_le_div_right (by omega)
    omega
  · intro i
    constructor
    · rintro ⟨a, ha, hidx⟩
      rw [windowAggregates] at ha
      obtain ⟨j, hj, hja⟩ := List.mem_filterMap.mp ha
      by_cases hemp : (selRows rows W j).isEmpty
      · rw [if_pos hemp] at hja
        exact absurd hja (by simp)
      · rw [if_neg hemp] at hja
        have haj : a = mkAggregate startTs W rows j := (Option.some.inj hja).symm
        have hij : i = j := by
          rw [← hidx, haj]
          rfl
        subst hij
        exact ⟨List.mem_range.mp hj, by simpa [List.isEmpty_iff] using hemp⟩
    · rintro ⟨hi, hne⟩
      refine ⟨mkAggregate startTs W rows i, ?_, rfl⟩
      rw [windowAggregates]
      exact List.mem_filterMap.mpr ⟨i, List.mem_range.mpr hi,
        by rw [if_neg (by simpa [List.isEmpty_iff] using hne)]⟩

theorem window_partition_witness :
    (∀ r ∈ wRows, ∀ i : Nat, (r ∈ selRows wRows 30 i ↔ i = r.ts_rel_s / 30)) ∧
      (∀ r ∈ wRows, r.ts_rel_s / 30 < winCount wRows 30) ∧
      (∀ i : Nat,
        (∃ a ∈ windowAggregates 0 30 wRows, a.win_idx = i) ↔
          (i < winCount wRows 30 ∧ selRows wRows 30 i ≠ [])) :=
  window_partition 0 30 wRows (by decide) (by decide)

/-- C8: every emitted window aggregate carries
`q_score = 0.4·(non-null-speed fraction) + 0.2·(1 - gap_seconds/W) +
0.2·(non-null-HR fraction) + 0.2·(1 - inconsistency-flag fraction)` clamped
to `[0, 1]`, computed over exactly the rows its bucket selects. -/
theorem q_score_of_window (startTs W : Nat) (rows : List CanonicalRow)
    (i : Nat) (hi : i < winCount rows W) (hne : selRows rows W i ≠ []) :
    ∃ a ∈ windowAggregates startTs W rows, a.win_idx = i ∧
      a.q_score = min 1 (max 0 (
        2/5 * (((selRows rows W i).countP (fun r => r.speed_ms.isSome) : ℚ) /
            ((selRows rows W i).length : ℚ))
        + 1/5 * (1 - (gapSeconds (selRows rows W i) : ℚ) / (W : ℚ))
        + 1/5 * (((selRows rows W i).countP (fun r => r.hr_bpm.isSome) : ℚ) /
            ((selRows rows W i).length : ℚ))
        + 1/5 * (1 - ((selRows rows W i).countP
              (fun r => r.low_speed_hr_inconsistent) : ℚ) /
            ((selRows rows W i).length : ℚ)))) := by
  refine ⟨mkAggregate startTs W rows i, ?_, rfl, rfl⟩
  rw [windowAggregates]
  exact List.mem_filterMap.mpr ⟨i, List.mem_range.mpr hi,
    by rw [if_neg (by simpa [List.isEmpty_iff] using hne)]⟩

theorem q_score_of_window_witness :
    ∃ a ∈ windowAggregates 0 30 wRows, a.win_idx = 0 ∧ a.q_score = 1 := by
  obtain ⟨a, ha, hidx, hq⟩ := q_score_of_window 0 30 wRows 0 (by decide) (by decide)
  refine ⟨a, ha, hidx, ?_⟩
  rw [hq]
  have h1 : selRows wRows 30 0 = wRows := by decide
  rw [h1]
  have h2 : wRows.countP (fun r => r.speed_ms.isSome) = 30 := by decide
  have h3 : wRows.countP (fun r => r.hr_bpm.isSome) = 30 := by decide
  have h4 : wRows.countP (fun r => r.low_speed_hr_inconsistent) = 0 := by decide
  have h5 : gapSeconds wRows = 0 := by decide
  have h6 : wRows.length = 30 := by decide
  rw [h2, h3, h4, h5, h6]
  norm_num
